import Mathlib

/-!
# Verification of the SoapyTest rate-test utility

Shallow embedding of `src/SoapyRateTest.cpp` (the file built by
`src/CMakeLists.txt` into the `SoapySDRUtil` executable; `src/unnamed/part_000`
is an older variant of the same translation unit and is noted where it
differs).  The program is a thin client of the SoapySDR library: device calls
are modelled as an event trace, the rate-test loop as a state machine stepped
once per `while` iteration, and the per-iteration observations the C++ code
makes of its environment (the `loopDone` signal flag, the return value of
`readStream`/`writeStream`, the clock, the returns of `readStreamStatus`)
are supplied as an input schedule.
-/

namespace SoapyTest

/-- Stream direction.  The C constants are `SOAPY_SDR_TX = 0`,
`SOAPY_SDR_RX = 1`; only their identity matters here. -/
inductive Dir
  | rx
  | tx
deriving DecidableEq, Repr

/-- Error return codes from `SoapySDR/Errors.h` used by
`runRateTestStreamLoop`. -/
def SOAPY_SDR_TIMEOUT : ℤ := -1

/-- `SOAPY_SDR_OVERFLOW` from `SoapySDR/Errors.h`. -/
def SOAPY_SDR_OVERFLOW : ℤ := -4

/-- `SOAPY_SDR_TIME_ERROR` from `SoapySDR/Errors.h`. -/
def SOAPY_SDR_TIME_ERROR : ℤ := -6

/-- `SOAPY_SDR_UNDERFLOW` from `SoapySDR/Errors.h`. -/
def SOAPY_SDR_UNDERFLOW : ℤ := -7

/-- `EXIT_SUCCESS` from `<cstdlib>`. -/
def EXIT_SUCCESS : ℤ := 0

/-- `EXIT_FAILURE` from `<cstdlib>`. -/
def EXIT_FAILURE : ℤ := 1

/-- Observable events of the program: each constructor is one call into the
SoapySDR library (tagged with the direction of the stream or channel it acts
on), one diagnostic print the claims refer to, or the signal handler's write
to the `loopDone` flag.  `printRate` records the printf of
`SoapyRateTest.cpp:143`: the wall-clock time `t` (ns), the elapsed
microseconds `tus` since the loop's `startTime`, and the `totalSamples`,
`overflows`, `underflows` counters at the moment of printing; the printed
numbers are recovered from these fields by `printedMsps`, `printedMBps`,
`printedCount` below. -/
inductive Ev
  | make
  | unmake
  | setFrequency (d : Dir) (chan : ℕ) (v : ℚ)
  | setBandwidth (d : Dir) (chan : ℕ) (v : ℚ)
  | setSampleRate (d : Dir) (chan : ℕ) (v : ℚ)
  | setGain (d : Dir) (chan : ℕ) (v : ℚ)
  | getNativeFormat (d : Dir)
  | setupStream (d : Dir)
  | getStreamMTU (d : Dir)
  | activateStream (d : Dir)
  | readStream (d : Dir) (numElems : ℕ)
  | writeStream (d : Dir) (numElems : ℕ)
  | readStreamStatus (d : Dir)
  | streamError (d : Dir) (ret : ℤ)
  | printRate (d : Dir) (t tus samples ov un : ℕ)
  | deactivateStream (d : Dir)
  | closeStream (d : Dir)
  | setLoopDone
deriving DecidableEq, Repr

/-- The `sig_atomic_t loopDone` flag is the only global the threads share:
`sigIntHandler` (`SoapyRateTest.cpp:19`) sets it; modelled as the event
`Ev.setLoopDone`, which only this definition emits. -/
def sigIntHandlerEvs : List Ev := [Ev.setLoopDone]

/-- Local state of one `runRateTestStreamLoop` invocation
(`SoapyRateTest.cpp:68`–`76`).  Counters wrap like the C types they embed
(`unsigned int`, `unsigned long long`); times are nanoseconds of the
`high_resolution_clock`. `spinIndex` is a C `int` used only modulo 4 for the
spinner glyph, kept as an unbounded integer. -/
structure St where
  overflows : ℕ
  underflows : ℕ
  totalSamples : ℕ
  spinIndex : ℤ
  timeLastPrint : ℕ
  timeLastSpin : ℕ
  timeLastStatus : ℕ
deriving DecidableEq, Repr

/-- The four initial clock samples of `SoapyRateTest.cpp:72`–`75`. -/
structure Times where
  start : ℕ
  lastPrint0 : ℕ
  lastSpin0 : ℕ
  lastStatus0 : ℕ
deriving DecidableEq, Repr

/-- Initial loop state (`SoapyRateTest.cpp:69`–`76`). -/
def initSt (t : Times) : St :=
  ⟨0, 0, 0, 0, t.lastPrint0, t.lastSpin0, t.lastStatus0⟩

/-- Environment observations of one iteration of the `while` loop:
the `loopDone` flag sampled by the loop condition, the return value of the
`readStream`/`writeStream` call, the single `now` clock sample
(`SoapyRateTest.cpp:116`), and the successive returns of `readStreamStatus`
should the status poll run this iteration. -/
structure IterIn where
  loopDone : Bool
  ret : ℤ
  now : ℕ
  statusRets : List ℤ
deriving DecidableEq, Repr

/-- How one invocation of `runRateTestStreamLoop` leaves its `while` loop:
by the signal flag (`while (not loopDone)`) or by the `break` on an
unexpected negative stream return (`SoapyRateTest.cpp:109`–`113`). -/
inductive LoopExit
  | signalled
  | fatalError (ret : ℤ)
deriving DecidableEq, Repr

/-- The stream call selected by the `switch(direction)` of
`SoapyRateTest.cpp:86`–`96`. -/
def streamCallEv (d : Dir) (numElems : ℕ) : Ev :=
  match d with
  | Dir.rx => Ev.readStream Dir.rx numElems
  | Dir.tx => Ev.writeStream Dir.tx numElems

/-- The inner status-poll loop (`SoapyRateTest.cpp:128`–`136`): calls
`readStreamStatus` repeatedly, bumping the overflow/underflow counters on
`SOAPY_SDR_OVERFLOW`/`SOAPY_SDR_UNDERFLOW`, skipping `SOAPY_SDR_TIME_ERROR`,
and breaking on any other return (the breaking call is still made, hence
still traced).  The schedule list is finite, so an exhausted schedule also
stops the poll.  Returns the emitted events and the updated counters. -/
def processStatus (d : Dir) : List ℤ → ℕ → ℕ → List Ev × ℕ × ℕ
  | [], ov, un => ([], ov, un)
  | r :: rest, ov, un =>
    if r = SOAPY_SDR_OVERFLOW then
      let p := processStatus d rest ((ov + 1) % 2 ^ 32) un
      (Ev.readStreamStatus d :: p.1, p.2)
    else if r = SOAPY_SDR_UNDERFLOW then
      let p := processStatus d rest ov ((un + 1) % 2 ^ 32)
      (Ev.readStreamStatus d :: p.1, p.2)
    else if r = SOAPY_SDR_TIME_ERROR then
      let p := processStatus d rest ov un
      (Ev.readStreamStatus d :: p.1, p.2)
    else ([Ev.readStreamStatus d], ov, un)

/-- The spinner block (`SoapyRateTest.cpp:117`–`123`), guarded by
`timeLastSpin + 300ms < now`. -/
def spinUpdate (now : ℕ) (st : St) : St :=
  if st.timeLastSpin + 300000000 < now then
    { st with timeLastSpin := now, spinIndex := st.spinIndex + 1 }
  else st

/-- The status-poll block (`SoapyRateTest.cpp:125`–`137`), guarded by
`timeLastStatus + 1s < now`. -/
def statusUpdate (d : Dir) (statusRets : List ℤ) (now : ℕ) (st : St) :
    List Ev × St :=
  if st.timeLastStatus + 1000000000 < now then
    let p := processStatus d statusRets st.overflows st.underflows
    (p.1, { st with timeLastStatus := now, overflows := p.2.1, underflows := p.2.2 })
  else ([], st)

/-- The rate-print block (`SoapyRateTest.cpp:138`–`147`), guarded by
`timeLastPrint + 5s < now`: on firing, `timeLastPrint` becomes `now` and the
event records `now`, the elapsed microseconds
`duration_cast<microseconds>(now - startTime)`, and the three counters. -/
def printUpdate (d : Dir) (start now : ℕ) (st : St) : List Ev × St :=
  if st.timeLastPrint + 5000000000 < now then
    ([Ev.printRate d now ((now - start) / 1000) st.totalSamples st.overflows st.underflows],
      { st with timeLastPrint := now })
  else ([], st)

/-- One iteration of the `while (not loopDone)` loop of
`runRateTestStreamLoop` (`SoapyRateTest.cpp:81`–`149`): sample the flag; if
clear, make the stream call, dispatch on its return (`continue` on timeout,
`continue` with a counter bump on overflow/underflow, print-and-`break` on
any other negative value), accumulate `totalSamples`, and run the spinner,
status-poll and rate-print blocks (`spinUpdate`, `statusUpdate`,
`printUpdate`), all judged against the single `now` sample of line 116.
Returns the events of the iteration, the new state, and `some e` when the
loop exits. -/
def step (d : Dir) (numChans elemSize numElems start : ℕ) (st : St) (i : IterIn) :
    List Ev × St × Option LoopExit :=
  if i.loopDone then ([], st, some LoopExit.signalled)
  else
    let callEv := streamCallEv d numElems
    if i.ret = SOAPY_SDR_TIMEOUT then ([callEv], st, none)
    else if i.ret = SOAPY_SDR_OVERFLOW then
      ([callEv], { st with overflows := (st.overflows + 1) % 2 ^ 32 }, none)
    else if i.ret = SOAPY_SDR_UNDERFLOW then
      ([callEv], { st with underflows := (st.underflows + 1) % 2 ^ 32 }, none)
    else if i.ret < 0 then
      ([callEv, Ev.streamError d i.ret], st, some (LoopExit.fatalError i.ret))
    else
      let st1 := { st with totalSamples := (st.totalSamples + i.ret.toNat) % 2 ^ 64 }
      let s := statusUpdate d i.statusRets i.now (spinUpdate i.now st1)
      let p := printUpdate d start i.now s.2
      (callEv :: (s.1 ++ p.1), p.2, none)

/-- The whole `while (not loopDone)` loop over a finite schedule of
iteration observations.  Result `(events, final state, exit)`; `exit = none`
means the schedule ran out while the loop was still running (the loop has
not returned yet). -/
def runLoop (d : Dir) (numChans elemSize numElems start : ℕ) :
    List IterIn → St → List Ev × St × Option LoopExit
  | [], st => ([], st, none)
  | i :: rest, st =>
    match step d numChans elemSize numElems start st i with
    | (evs, st2, some e) => (evs, st2, some e)
    | (evs, st2, none) =>
      let r := runLoop d numChans elemSize numElems start rest st2
      (evs ++ r.1, r.2)

/-- The device-facing behaviour of `runRateTestStreamLoop`
(`SoapyRateTest.cpp:24`–`153`, sample generation of lines 37–63 excepted —
that local computation is modelled by `generateSamples` below): query the
stream MTU, activate the stream, run the `while` loop, and deactivate the
stream when the loop exits.  When the schedule ends with the loop still
running (`exit = none`) the trace is the partial trace of the still-running
call, which has not yet deactivated. -/
def rateLoopRun (d : Dir) (numChans elemSize numElems : ℕ) (t : Times)
    (iters : List IterIn) : List Ev × St × Option LoopExit :=
  let r := runLoop d numChans elemSize numElems t.start iters (initSt t)
  (Ev.getStreamMTU d :: Ev.activateStream d :: r.1 ++
      (match r.2.2 with
        | some _ => [Ev.deactivateStream d]
        | none => []),
    r.2)

/-- The sample rate printed at `SoapyRateTest.cpp:142`:
`double(totalSamples)/timePassed.count()` with `timePassed` the elapsed
microseconds. -/
def printedMsps (tus samples : ℕ) : ℚ := (samples : ℚ) / (tus : ℚ)

/-- The byte rate printed at `SoapyRateTest.cpp:143`:
`sampleRate*numChans*elemSize`. -/
def printedMBps (tus samples numChans elemSize : ℕ) : ℚ :=
  printedMsps tus samples * numChans * elemSize

/-- The conditional counter prints of `SoapyRateTest.cpp:144`–`145`:
a counter is printed exactly when it is nonzero. -/
def printedCount (c : ℕ) : Option ℕ := if c = 0 then none else some c

/-- Times of the `printRate` events of a trace, in trace order. -/
def printTimes (evs : List Ev) : List ℕ :=
  evs.filterMap fun e =>
    match e with
    | Ev.printRate _ t _ _ _ _ => some t
    | _ => none

/-! ## The sample-generation loop (`SoapyRateTest.cpp:37`–`63`)

Only `src/SoapyRateTest.cpp` has this loop; the `part_000` variant does not.
The loop writes, for each element index `i`, the float pair
`(cos(phi)*amplitude*exp2(elemSize*4-1), sin(phi)*...)` through
`reinterpret_cast<float*>(&buffMem[0][i])` and `&buffMem[1][i]`, with
`amplitude = 1.0` and `phi` advancing by `omega` each iteration.  A float
pair at byte offset `i` covers bytes `[i, i+8)` of a buffer of
`elemSize*numElems` bytes.  `cos`, `sin` (the `double` library functions
composed with the `double`→`float` store) are abstracted as function
parameters `cosF`, `sinF`, and `omega = 2*pi*frequency/sampleRate` is taken
as a rational parameter since `pi` is irrational; values live in `ℚ`. -/

/-- One write of a 4-byte float value `val` at byte offset `byteOff` of
buffer `buffMem[chan]`. -/
structure FloatWrite where
  chan : ℕ
  byteOff : ℕ
  val : ℚ
deriving DecidableEq, Repr

/-- The four float stores of one iteration of the generation loop
(`SoapyRateTest.cpp:44`–`60`), at phase `phi` and byte offset `i`:
re/im into `buffMem[0]` at bytes `i` and `i+4`, then the same into
`buffMem[1]`. -/
def genWritesAt (cosF sinF : ℚ → ℚ) (elemSize : ℕ) (phi : ℚ) (i : ℕ) :
    List FloatWrite :=
  let re := cosF phi * 1 * 2 ^ (elemSize * 4 - 1)
  let im := sinF phi * 1 * 2 ^ (elemSize * 4 - 1)
  [⟨0, i, re⟩, ⟨0, i + 4, im⟩, ⟨1, i, re⟩, ⟨1, i + 4, im⟩]

/-- The generation loop, `k` iterations remaining at byte offset `i`, phase
`phi`; `buffLen = elemSize*numElems` is each buffer's byte length.  Indexing
is Option-returning: an iteration requires `buffMem[1]` to exist
(`1 < numChans`, which subsumes the `buffMem[0]` access) and the float pair
to lie within the buffer (`i + 8 ≤ buffLen`); otherwise the whole loop is
`none` (the C++ access is out of bounds). -/
def genAux (cosF sinF : ℚ → ℚ) (omega : ℚ) (numChans elemSize buffLen : ℕ) :
    ℕ → ℕ → ℚ → Option (List FloatWrite)
  | 0, _, _ => some []
  | k + 1, i, phi =>
    if 1 < numChans ∧ i + 8 ≤ buffLen then
      match genAux cosF sinF omega numChans elemSize buffLen k (i + 1) (phi + omega) with
      | some rest => some (genWritesAt cosF sinF elemSize phi i ++ rest)
      | none => none
    else none

/-- The full generation loop (`SoapyRateTest.cpp:42`–`63`): `numElems`
iterations starting at offset `0`, phase `0.0`, over buffers of
`elemSize*numElems` bytes.  `some ws` is the list of float writes performed,
in program order; `none` means some access was out of bounds. -/
def generateSamples (cosF sinF : ℚ → ℚ) (omega : ℚ)
    (numChans elemSize numElems : ℕ) : Option (List FloatWrite) :=
  genAux cosF sinF omega numChans elemSize (elemSize * numElems) numElems 0 0

/-- Whole-function model of `runRateTestStreamLoop` (`SoapyRateTest.cpp:24`–
`153`): `omega = 2*pi*frequency/sampleRate` (line 40, `pi` abstracted as a
rational parameter), the generation writes into the local buffers, and the
device-facing trace of the streaming loop. -/
def runRateTestStreamLoop (cosF sinF : ℚ → ℚ) (pi frequency sampleRate : ℚ)
    (d : Dir) (numChans elemSize numElems : ℕ) (t : Times)
    (iters : List IterIn) :
    Option (List FloatWrite) × List Ev × St × Option LoopExit :=
  let omega := 2 * pi * frequency / sampleRate
  (generateSamples cosF sinF omega numChans elemSize numElems,
    rateLoopRun d numChans elemSize numElems t iters)

/-! ## `SoapySDRRateTest` (`SoapyRateTest.cpp:155`–`243`) -/

/-- The scalar configuration arguments of `SoapySDRRateTest`. -/
structure Cfg where
  frequency : ℚ
  bandwidth : ℚ
  sampleRate : ℚ
  rxGain : ℚ
  txGain : ℚ
deriving DecidableEq, Repr

/-- The channel list built at `SoapyRateTest.cpp:172`–`177`: one entry per
pair of `KwargsFromString(channelStr)` (the library parser, abstracted as
the pair list it returns), each key run through `std::stoi` and converted to
`size_t` (abstracted as `parse`); if that leaves the vector empty, `0` is
pushed. -/
def buildChannels (parse : String → ℕ) (pairs : List (String × String)) :
    List ℕ :=
  let cs := pairs.map fun p => parse p.1
  if cs.isEmpty then [0] else cs

/-- The configuration calls of `SoapyRateTest.cpp:180`–`193`: for each
channel, frequency, bandwidth, sample rate for both directions with the same
value, and gain with `rxGain`/`txGain` per direction, in source order. -/
def configEvents (channels : List ℕ) (cfg : Cfg) : List Ev :=
  channels.flatMap fun c =>
    [Ev.setFrequency Dir.rx c cfg.frequency, Ev.setFrequency Dir.tx c cfg.frequency,
      Ev.setBandwidth Dir.rx c cfg.bandwidth, Ev.setBandwidth Dir.tx c cfg.bandwidth,
      Ev.setSampleRate Dir.rx c cfg.sampleRate, Ev.setSampleRate Dir.tx c cfg.sampleRate,
      Ev.setGain Dir.rx c cfg.rxGain, Ev.setGain Dir.tx c cfg.txGain]

/-- The device-call trace of a completed, exception-free `SoapySDRRateTest`
run (`SoapyRateTest.cpp:169`–`234`): make the device, configure every
channel, resolve the stream formats (`getNativeStreamFormat` is consulted
only when `formatStr` is empty, and — as written at lines 197 and 201 — for
the RX direction both times), set up the RX then the TX stream, run the two
`runRateTestStreamLoop` threads (their traces interleave arbitrarily into
`mid`; the `rxThread.join(); txThread.join()` of lines 228–229 mean both
loop traces are complete before what follows), then close both streams and
unmake the device. -/
def programTrace (channels : List ℕ) (cfg : Cfg) (formatEmpty : Bool)
    (mid : List Ev) : List Ev :=
  Ev.make :: configEvents channels cfg
    ++ (if formatEmpty then [Ev.getNativeFormat Dir.rx] else [])
    ++ [Ev.setupStream Dir.rx]
    ++ (if formatEmpty then [Ev.getNativeFormat Dir.rx] else [])
    ++ [Ev.setupStream Dir.tx]
    ++ mid
    ++ [Ev.closeStream Dir.rx, Ev.closeStream Dir.tx, Ev.unmake]

/-- The exit status of `SoapySDRRateTest`: the catch branch returns
`EXIT_FAILURE` (`SoapyRateTest.cpp:240`) and the fall-through end of the
function also returns `EXIT_FAILURE` (line 242).  `threw` says whether any
call of the try block raised. -/
def soapySDRRateTestExit (threw : Bool) : ℤ :=
  if threw then EXIT_FAILURE else EXIT_FAILURE

/-! ## Event classifiers -/

/-- Direction tag of an event, when it has one. -/
def evDir : Ev → Option Dir
  | Ev.make => none
  | Ev.unmake => none
  | Ev.setFrequency d _ _ => some d
  | Ev.setBandwidth d _ _ => some d
  | Ev.setSampleRate d _ _ => some d
  | Ev.setGain d _ _ => some d
  | Ev.getNativeFormat d => some d
  | Ev.setupStream d => some d
  | Ev.getStreamMTU d => some d
  | Ev.activateStream d => some d
  | Ev.readStream d _ => some d
  | Ev.writeStream d _ => some d
  | Ev.readStreamStatus d => some d
  | Ev.streamError d _ => some d
  | Ev.printRate d _ _ _ _ _ => some d
  | Ev.deactivateStream d => some d
  | Ev.closeStream d => some d
  | Ev.setLoopDone => none

/-- Events a loop iteration can emit (all tagged with the loop's own
direction). -/
def midEv (d : Dir) : Ev → Bool
  | Ev.readStream d' _ => d' = d
  | Ev.writeStream d' _ => d' = d
  | Ev.readStreamStatus d' => d' = d
  | Ev.streamError d' _ => d' = d
  | Ev.printRate d' _ _ _ _ _ => d' = d
  | _ => false

/-- Events the whole `runRateTestStreamLoop` thread of direction `d` can
emit. -/
def threadEv (d : Dir) : Ev → Bool
  | Ev.getStreamMTU d' => d' = d
  | Ev.activateStream d' => d' = d
  | Ev.deactivateStream d' => d' = d
  | e => midEv d e

/-- The stream-lifecycle calls of stream `d` that claim C3 orders:
setup, activate, read, write, status, deactivate, close. -/
def lifecycleEv (d : Dir) : Ev → Bool
  | Ev.setupStream d' => d' = d
  | Ev.activateStream d' => d' = d
  | Ev.readStream d' _ => d' = d
  | Ev.writeStream d' _ => d' = d
  | Ev.readStreamStatus d' => d' = d
  | Ev.deactivateStream d' => d' = d
  | Ev.closeStream d' => d' = d
  | _ => false

/-- `readStream` calls. -/
def isReadEv : Ev → Bool
  | Ev.readStream _ _ => true
  | _ => false

/-- `writeStream` calls. -/
def isWriteEv : Ev → Bool
  | Ev.writeStream _ _ => true
  | _ => false

/-- The stream calls the loop body makes between activation and
deactivation: read, write, status poll. -/
def isBodyEv (d : Dir) : Ev → Bool
  | Ev.readStream d' _ => d' = d
  | Ev.writeStream d' _ => d' = d
  | Ev.readStreamStatus d' => d' = d
  | _ => false

/-- The parameter-setter calls of `SoapyRateTest.cpp:182`–`192`. -/
def isSetterEv : Ev → Bool
  | Ev.setFrequency _ _ _ => true
  | Ev.setBandwidth _ _ _ => true
  | Ev.setSampleRate _ _ _ => true
  | Ev.setGain _ _ _ => true
  | _ => false

/-- `setupStream` calls. -/
def isSetupEv : Ev → Bool
  | Ev.setupStream _ => true
  | _ => false

/-- `closeStream` calls. -/
def isCloseEv : Ev → Bool
  | Ev.closeStream _ => true
  | _ => false

/-- `activateStream` calls. -/
def isActivateEv : Ev → Bool
  | Ev.activateStream _ => true
  | _ => false

/-- Boolean form of `evDir e = some d`. -/
def evDirIs (d : Dir) (e : Ev) : Bool := decide (evDir e = some d)

/-! ### Concrete evaluation fixtures used by the witnesses -/

/-- All four initial clock samples at 0 ns. -/
def sampleTimes : Times := ⟨0, 0, 0, 0⟩

/-- An iteration that observes the signal flag already set. -/
def stopIter : IterIn := ⟨true, 0, 0, []⟩

/-- A successful iteration (16 elements) six seconds in, firing the
status poll (empty) and the rate print. -/
def samplePrintIter : IterIn := ⟨false, 16, 6000000000, []⟩

/-- A one-channel configuration fixture. -/
def sampleChannels : List ℕ := [0]

/-- A configuration fixture. -/
def sampleCfg : Cfg := ⟨1000000, 20000, 30000, 10, 20⟩

/-- An RX loop run that is signalled immediately. -/
def sampleRxRun : List Ev × St × Option LoopExit :=
  rateLoopRun Dir.rx 1 8 16 sampleTimes [stopIter]

/-- A TX loop run that is signalled immediately. -/
def sampleTxRun : List Ev × St × Option LoopExit :=
  rateLoopRun Dir.tx 1 8 16 sampleTimes [stopIter]

/-- The sequential interleaving that runs the RX trace before the TX
trace. -/
def sampleMid : List Ev := sampleRxRun.1 ++ sampleTxRun.1

/-- `m` is an interleaving of `l` and `r` (each element of `m` comes from
the head of one of the two, orders preserved) — the possible sequential
observations of the two concurrently running stream-loop threads. -/
inductive Interleave : List Ev → List Ev → List Ev → Prop
  | nil : Interleave [] [] []
  | left {a l r m} : Interleave l r m → Interleave (a :: l) r (a :: m)
  | right {a l r m} : Interleave l r m → Interleave l (a :: r) (a :: m)

/-! ## Helper lemmas -/

theorem processStatus_mem (d : Dir) (rs : List ℤ) (ov un : ℕ) :
    ∀ e ∈ (processStatus d rs ov un).1, e = Ev.readStreamStatus d := by
  induction rs generalizing ov un with
  | nil => intro e he; simp [processStatus] at he
  | cons r rest ih =>
    intro e he
    unfold processStatus at he
    split_ifs at he <;> simp at he <;>
      first
      | exact he
      | (rcases he with he | he
         · exact he
         · exact ih _ _ e he)

theorem statusUpdate_mem (d : Dir) (rs : List ℤ) (now : ℕ) (st : St) :
    ∀ e ∈ (statusUpdate d rs now st).1, e = Ev.readStreamStatus d := by
  intro e he
  unfold statusUpdate at he
  split_ifs at he
  · exact processStatus_mem d rs _ _ e he
  · simp at he

theorem printUpdate_mem (d : Dir) (start now : ℕ) (st : St) :
    ∀ e ∈ (printUpdate d start now st).1,
      e = Ev.printRate d now ((now - start) / 1000)
            st.totalSamples st.overflows st.underflows := by
  intro e he
  unfold printUpdate at he
  split_ifs at he <;> simp at he
  exact he

theorem streamCallEv_midEv (d : Dir) (ne : ℕ) :
    midEv d (streamCallEv d ne) = true := by
  cases d <;> simp [streamCallEv, midEv]

theorem step_mem_midEv (d : Dir) (nc es ne start : ℕ) (st : St) (i : IterIn) :
    ∀ e ∈ (step d nc es ne start st i).1, midEv d e = true := by
  intro e he
  unfold step at he
  split_ifs at he <;> simp at he
  · subst he; exact streamCallEv_midEv d ne
  · subst he; exact streamCallEv_midEv d ne
  · subst he; exact streamCallEv_midEv d ne
  · rcases he with rfl | rfl
    · exact streamCallEv_midEv d ne
    · simp [midEv]
  · rcases he with rfl | he | he
    · exact streamCallEv_midEv d ne
    · rw [statusUpdate_mem d _ _ _ e he]; simp [midEv]
    · rw [printUpdate_mem d _ _ _ e he]; simp [midEv]

theorem runLoop_mem_midEv (d : Dir) (nc es ne start : ℕ) :
    ∀ (iters : List IterIn) (st : St),
      ∀ e ∈ (runLoop d nc es ne start iters st).1, midEv d e = true := by
  intro iters
  induction iters with
  | nil => intro st e he; simp [runLoop] at he
  | cons i rest ih =>
    intro st e he
    rcases hstep : step d nc es ne start st i with ⟨evs, st2, ex⟩
    cases ex with
    | some e0 =>
      simp only [runLoop, hstep] at he
      exact step_mem_midEv d nc es ne start st i e (by rw [hstep]; exact he)
    | none =>
      simp only [runLoop, hstep] at he
      rcases List.mem_append.mp he with h | h
      · exact step_mem_midEv d nc es ne start st i e (by rw [hstep]; exact h)
      · exact ih st2 e h

theorem midEv_threadEv {d : Dir} {e : Ev} (h : midEv d e = true) :
    threadEv d e = true := by
  cases e <;> simp_all [midEv, threadEv]

theorem rateLoopRun_mem_threadEv (d : Dir) (nc es ne : ℕ) (t : Times)
    (iters : List IterIn) :
    ∀ e ∈ (rateLoopRun d nc es ne t iters).1, threadEv d e = true := by
  intro e he
  unfold rateLoopRun at he
  simp at he
  rcases he with rfl | rfl | he
  · simp [threadEv]
  · simp [threadEv]
  · rcases he with h | h
    · exact midEv_threadEv (runLoop_mem_midEv d nc es ne t.start iters (initSt t) e h)
    · rcases hex : (runLoop d nc es ne t.start iters (initSt t)).2.2 with _ | e0 <;>
        rw [hex] at h <;> simp at h
      subst h; simp [threadEv]

theorem threadEv_evDir {d : Dir} {e : Ev} (h : threadEv d e = true) :
    evDir e = some d := by
  cases e <;> simp_all [threadEv, midEv, evDir]

theorem threadEv_ne_dir {d d' : Dir} {e : Ev} (hne : d ≠ d')
    (h : threadEv d e = true) : threadEv d' e = false := by
  cases e <;> simp_all [threadEv, midEv] <;> intro hc <;> exact hne (h.symm.trans hc)

theorem Interleave.symm {l r m : List Ev} (h : Interleave l r m) :
    Interleave r l m := by
  induction h with
  | nil => exact .nil
  | left _ ih => exact .right ih
  | right _ ih => exact .left ih

theorem Interleave.filter_left {l r m : List Ev} (p : Ev → Bool)
    (h : Interleave l r m) (hr : ∀ b ∈ r, p b = false) :
    m.filter p = l.filter p := by
  induction h with
  | nil => rfl
  | @left a l' r' m' _ ih =>
    rw [List.filter_cons, List.filter_cons, ih hr]
  | @right a l' r' m' _ ih =>
    rw [List.filter_cons, hr a (List.mem_cons_self a _)]
    simp only [Bool.false_eq_true, if_false]
    exact ih fun b hb => hr b (List.mem_cons_of_mem a hb)

theorem interleave_append : ∀ l r : List Ev, Interleave l r (l ++ r) := by
  intro l r
  induction l with
  | nil =>
    induction r with
    | nil => exact .nil
    | cons a r ihr => exact .right ihr
  | cons a l ihl => exact .left ihl

theorem printTimes_append (a b : List Ev) :
    printTimes (a ++ b) = printTimes a ++ printTimes b := by
  unfold printTimes
  exact List.filterMap_append a b _

theorem printTimes_statusUpdate (d : Dir) (rs : List ℤ) (now : ℕ) (st : St) :
    printTimes (statusUpdate d rs now st).1 = [] := by
  unfold printTimes
  rw [List.filterMap_eq_nil]
  intro e he
  rw [statusUpdate_mem d rs now st e he]

theorem printTimes_streamCall (d : Dir) (ne : ℕ) (l : List Ev) :
    printTimes (streamCallEv d ne :: l) = printTimes l := by
  cases d <;> simp [printTimes, streamCallEv]

theorem statusUpdate_timeLastPrint (d : Dir) (rs : List ℤ) (now : ℕ) (st : St) :
    (statusUpdate d rs now st).2.timeLastPrint = st.timeLastPrint := by
  unfold statusUpdate
  split_ifs <;> rfl

theorem statusUpdate_totalSamples (d : Dir) (rs : List ℤ) (now : ℕ) (st : St) :
    (statusUpdate d rs now st).2.totalSamples = st.totalSamples := by
  unfold statusUpdate
  split_ifs <;> rfl

theorem spinUpdate_timeLastPrint (now : ℕ) (st : St) :
    (spinUpdate now st).timeLastPrint = st.timeLastPrint := by
  unfold spinUpdate
  split_ifs <;> rfl

/-- One iteration either prints nothing and keeps `timeLastPrint`, or prints
exactly once, at a time more than five seconds past the old
`timeLastPrint`, which it then becomes. -/
theorem step_print (d : Dir) (nc es ne start : ℕ) (st : St) (i : IterIn) :
    (printTimes (step d nc es ne start st i).1 = [] ∧
      (step d nc es ne start st i).2.1.timeLastPrint = st.timeLastPrint) ∨
    (∃ u, printTimes (step d nc es ne start st i).1 = [u] ∧
      st.timeLastPrint + 5000000000 < u ∧
      (step d nc es ne start st i).2.1.timeLastPrint = u) := by
  unfold step
  split_ifs with h1 h2 h3 h4 h5
  · left; exact ⟨rfl, rfl⟩
  · left; exact ⟨printTimes_streamCall d ne [], rfl⟩
  · left; exact ⟨printTimes_streamCall d ne [], rfl⟩
  · left; exact ⟨printTimes_streamCall d ne [], rfl⟩
  · left
    constructor
    · rw [printTimes_streamCall]; simp [printTimes]
    · rfl
  · have hg :
        (statusUpdate d i.statusRets i.now
            (spinUpdate i.now
              { st with totalSamples := (st.totalSamples + i.ret.toNat) % 2 ^ 64 })).2.timeLastPrint
          = st.timeLastPrint := by
      rw [statusUpdate_timeLastPrint, spinUpdate_timeLastPrint]
    simp only []
    rw [printTimes_streamCall, printTimes_append, printTimes_statusUpdate]
    unfold printUpdate
    split_ifs with hp
    · right
      refine ⟨i.now, by simp [printTimes], ?_, rfl⟩
      rw [hg] at hp
      exact hp
    · left
      exact ⟨rfl, hg⟩

/-- Strict five-second spacing of the rate prints of one loop run, with the
current `timeLastPrint` prepended. -/
theorem runLoop_chain (d : Dir) (nc es ne start : ℕ) :
    ∀ (iters : List IterIn) (st : St),
      List.Chain' (fun a b => a + 5000000000 < b)
        (st.timeLastPrint :: printTimes (runLoop d nc es ne start iters st).1) := by
  intro iters
  induction iters with
  | nil => intro st; simp [runLoop, printTimes]
  | cons i rest ih =>
    intro st
    rcases hstep : step d nc es ne start st i with ⟨evs, st2, ex⟩
    have hp := step_print d nc es ne start st i
    rw [hstep] at hp
    cases ex with
    | some e0 =>
      simp only [runLoop, hstep]
      rcases hp with ⟨hh1, _⟩ | ⟨u, hh1, hh2, _⟩
      · simp [hh1]
      · rw [hh1]
        simp [List.chain'_cons, hh2]
    | none =>
      simp only [runLoop, hstep]
      rw [printTimes_append]
      rcases hp with ⟨hh1, hh2⟩ | ⟨u, hh1, hh2, hh3⟩
      · rw [hh1]
        have := ih st2
        rw [hh2] at this
        simpa using this
      · rw [hh1]
        have := ih st2
        rw [hh3] at this
        exact List.chain'_cons.mpr ⟨hh2, this⟩

/-- Every rate print of one iteration carries the loop's own direction, the
`now` at which it fired, and the elapsed microseconds since `start`. -/
theorem step_printRate_fields (d : Dir) (nc es ne start : ℕ) (st : St)
    (i : IterIn) :
    ∀ d' u tus s ov un,
      Ev.printRate d' u tus s ov un ∈ (step d nc es ne start st i).1 →
        d' = d ∧ tus = (u - start) / 1000 := by
  intro d' u tus s ov un h
  unfold step at h
  split_ifs at h <;> simp at h
  · exact absurd h (by cases d <;> simp [streamCallEv])
  · exact absurd h (by cases d <;> simp [streamCallEv])
  · exact absurd h (by cases d <;> simp [streamCallEv])
  · exact absurd h (by cases d <;> simp [streamCallEv])
  · rcases h with h | h | h
    · exact absurd h (by cases d <;> simp [streamCallEv])
    · have := statusUpdate_mem d _ _ _ _ h
      simp at this
    · have := printUpdate_mem d _ _ _ _ h
      rw [Ev.printRate.injEq] at this
      exact ⟨this.1, by rw [this.2.2.1, this.2.1]⟩

theorem runLoop_printRate_fields (d : Dir) (nc es ne start : ℕ) :
    ∀ (iters : List IterIn) (st : St) (d' : Dir) (u tus s ov un : ℕ),
      Ev.printRate d' u tus s ov un ∈ (runLoop d nc es ne start iters st).1 →
        d' = d ∧ tus = (u - start) / 1000 := by
  intro iters
  induction iters with
  | nil => intro st d' u tus s ov un h; simp [runLoop] at h
  | cons i rest ih =>
    intro st d' u tus s ov un h
    rcases hstep : step d nc es ne start st i with ⟨evs, st2, ex⟩
    cases ex with
    | some e0 =>
      simp only [runLoop, hstep] at h
      exact step_printRate_fields d nc es ne start st i d' u tus s ov un
        (by rw [hstep]; exact h)
    | none =>
      simp only [runLoop, hstep] at h
      rcases List.mem_append.mp h with h | h
      · exact step_printRate_fields d nc es ne start st i d' u tus s ov un
          (by rw [hstep]; exact h)
      · exact ih st2 d' u tus s ov un h

/-- The loop leaves by the signal only when an iteration observed the flag
set. -/
theorem step_exit_signalled (d : Dir) (nc es ne start : ℕ) (st : St)
    (i : IterIn) :
    (step d nc es ne start st i).2.2 = some LoopExit.signalled →
      i.loopDone = true := by
  unfold step
  split_ifs <;> simp_all

/-- The loop `break`s only on a negative stream return that is none of
timeout, overflow, underflow, observed with the flag clear. -/
theorem step_exit_fatal (d : Dir) (nc es ne start : ℕ) (st : St) (i : IterIn) :
    ∀ r, (step d nc es ne start st i).2.2 = some (LoopExit.fatalError r) →
      i.loopDone = false ∧ i.ret = r ∧ r < 0 ∧
        r ≠ SOAPY_SDR_TIMEOUT ∧ r ≠ SOAPY_SDR_OVERFLOW ∧
        r ≠ SOAPY_SDR_UNDERFLOW := by
  unfold step
  intro r
  split_ifs with h1 h2 h3 h4 h5 <;> simp_all
  intro hr
  subst hr
  exact ⟨h5, h2, h3, h4⟩

theorem runLoop_exit_signalled (d : Dir) (nc es ne start : ℕ) :
    ∀ (iters : List IterIn) (st : St),
      (runLoop d nc es ne start iters st).2.2 = some LoopExit.signalled →
        ∃ j ∈ iters, j.loopDone = true := by
  intro iters
  induction iters with
  | nil => intro st h; simp [runLoop] at h
  | cons i rest ih =>
    intro st h
    rcases hstep : step d nc es ne start st i with ⟨evs, st2, ex⟩
    cases ex with
    | some e0 =>
      simp only [runLoop, hstep] at h
      simp at h
      subst h
      exact ⟨i, List.mem_cons_self i rest,
        step_exit_signalled d nc es ne start st i (by rw [hstep])⟩
    | none =>
      simp only [runLoop, hstep] at h
      obtain ⟨j, hj, hjd⟩ := ih st2 h
      exact ⟨j, List.mem_cons_of_mem i hj, hjd⟩

theorem runLoop_exit_fatal (d : Dir) (nc es ne start : ℕ) :
    ∀ (iters : List IterIn) (st : St) (r : ℤ),
      (runLoop d nc es ne start iters st).2.2 = some (LoopExit.fatalError r) →
        r < 0 ∧ r ≠ SOAPY_SDR_TIMEOUT ∧ r ≠ SOAPY_SDR_OVERFLOW ∧
          r ≠ SOAPY_SDR_UNDERFLOW ∧
          ∃ j ∈ iters, j.loopDone = false ∧ j.ret = r := by
  intro iters
  induction iters with
  | nil => intro st r h; simp [runLoop] at h
  | cons i rest ih =>
    intro st r h
    rcases hstep : step d nc es ne start st i with ⟨evs, st2, ex⟩
    cases ex with
    | some e0 =>
      simp only [runLoop, hstep] at h
      simp at h
      subst h
      obtain ⟨hld, hret, hneg, hn1, hn4, hn7⟩ :=
        step_exit_fatal d nc es ne start st i r (by rw [hstep])
      exact ⟨hneg, hn1, hn4, hn7, i, List.mem_cons_self i rest, hld, hret⟩
    | none =>
      simp only [runLoop, hstep] at h
      obtain ⟨hneg, hn1, hn4, hn7, j, hj, hjp⟩ := ih st2 r h
      exact ⟨hneg, hn1, hn4, hn7, j, List.mem_cons_of_mem i hj, hjp⟩

/-- When `buffMem[1]` exists and every float pair fits, the generation loop
performs exactly the four writes of `genWritesAt` per element, phases
advancing by `omega`. -/
theorem genAux_eq_some (cosF sinF : ℚ → ℚ) (omega : ℚ) (nc es bl : ℕ)
    (hnc : 1 < nc) :
    ∀ (k i : ℕ) (phi : ℚ), (∀ j, j < k → i + j + 8 ≤ bl) →
      genAux cosF sinF omega nc es bl k i phi =
        some ((List.range k).flatMap fun j =>
          genWritesAt cosF sinF es (phi + j * omega) (i + j)) := by
  intro k
  induction k with
  | zero => intro i phi _; simp [genAux]
  | succ k ih =>
    intro i phi hb
    unfold genAux
    rw [if_pos ⟨hnc, by simpa using hb 0 (Nat.succ_pos k)⟩,
      ih (i + 1) (phi + omega) fun j hj => by
        have := hb (j + 1) (Nat.succ_lt_succ hj); omega]
    simp only [Option.some.injEq]
    rw [List.range_succ_eq_map, List.flatMap_cons]
    congr 1
    · norm_num
    · rw [List.flatMap_map]
      refine List.flatMap_congr fun j _ => ?_
      have h1 : phi + omega + (j : ℚ) * omega = phi + ((j : ℚ) + 1) * omega := by
        ring
      have h2 : i + 1 + j = i + (j + 1) := by omega
      rw [h1, h2]
      norm_num

/-- With only one channel allocated, the first iteration's access to
`buffMem[1]` is out of bounds, so the generation loop fails. -/
theorem generateSamples_one_chan (cosF sinF : ℚ → ℚ) (omega : ℚ)
    (es ne : ℕ) (hne : 0 < ne) :
    generateSamples cosF sinF omega 1 es ne = none := by
  unfold generateSamples
  cases ne with
  | zero => exact absurd hne (lt_irrefl 0)
  | succ k =>
    unfold genAux
    rw [if_neg]
    rintro ⟨h1, -⟩
    exact absurd h1 (lt_irrefl 1)

theorem configEvents_mem (channels : List ℕ) (cfg : Cfg) :
    ∀ e ∈ configEvents channels cfg, isSetterEv e = true := by
  intro e he
  unfold configEvents at he
  obtain ⟨c, _, hm⟩ := List.mem_flatMap.mp he
  simp at hm
  rcases hm with rfl | rfl | rfl | rfl | rfl | rfl | rfl | rfl <;> rfl

theorem lifecycleEv_evDir {d : Dir} {e : Ev} (h : lifecycleEv d e = true) :
    evDir e = some d := by
  cases e <;> simp_all [lifecycleEv, evDir]

theorem setter_not_lifecycle {e : Ev} (d : Dir) (h : isSetterEv e = true) :
    lifecycleEv d e = false := by
  cases e <;> simp_all [isSetterEv, lifecycleEv]

theorem threadEv_not_setter {d : Dir} {e : Ev} (h : threadEv d e = true) :
    isSetterEv e = false := by
  cases e <;> simp_all [threadEv, midEv, isSetterEv]

theorem threadEv_not_setup {d : Dir} {e : Ev} (h : threadEv d e = true) :
    isSetupEv e = false := by
  cases e <;> simp_all [threadEv, midEv, isSetupEv]

theorem threadEv_not_close {d : Dir} {e : Ev} (h : threadEv d e = true) :
    isCloseEv e = false := by
  cases e <;> simp_all [threadEv, midEv, isCloseEv]

theorem threadEv_lifecycle_ne {d d' : Dir} {e : Ev} (hne : d ≠ d')
    (h : threadEv d e = true) : lifecycleEv d' e = false := by
  cases hl : lifecycleEv d' e
  · rfl
  · have h1 := threadEv_evDir h
    have h2 := lifecycleEv_evDir hl
    rw [h1, Option.some.injEq] at h2
    exact absurd h2 hne

theorem midEv_lifecycle_body {d : Dir} {e : Ev} (hm : midEv d e = true)
    (hl : lifecycleEv d e = true) : isBodyEv d e = true := by
  cases e <;> simp_all [midEv, lifecycleEv, isBodyEv]

theorem Interleave.mem_or {l r m : List Ev} (h : Interleave l r m) :
    ∀ x ∈ m, x ∈ l ∨ x ∈ r := by
  induction h with
  | nil => intro x hx; exact absurd hx (List.not_mem_nil x)
  | @left a l' r' m' _ ih =>
    intro x hx
    rcases List.mem_cons.mp hx with rfl | hx
    · exact Or.inl (List.mem_cons_self _ _)
    · rcases ih x hx with h | h
      · exact Or.inl (List.mem_cons_of_mem _ h)
      · exact Or.inr h
  | @right a l' r' m' _ ih =>
    intro x hx
    rcases List.mem_cons.mp hx with rfl | hx
    · exact Or.inr (List.mem_cons_self _ _)
    · rcases ih x hx with h | h
      · exact Or.inl h
      · exact Or.inr (List.mem_cons_of_mem _ h)

theorem midEv_not_activate {d : Dir} {e : Ev} (h : midEv d e = true) :
    isActivateEv e = false := by
  cases e <;> simp_all [midEv, isActivateEv]

theorem setter_not_setup {e : Ev} (h : isSetterEv e = true) :
    isSetupEv e = false := by
  cases e <;> simp_all [isSetterEv, isSetupEv]

theorem setter_not_close {e : Ev} (h : isSetterEv e = true) :
    isCloseEv e = false := by
  cases e <;> simp_all [isSetterEv, isCloseEv]

theorem step_rx_no_write (nc es ne start : ℕ) (st : St) (i : IterIn) :
    ∀ e ∈ (step Dir.rx nc es ne start st i).1, isWriteEv e = false := by
  intro e he
  unfold step at he
  split_ifs at he <;> simp at he
  · subst he; rfl
  · subst he; rfl
  · subst he; rfl
  · rcases he with rfl | rfl <;> rfl
  · rcases he with rfl | he | he
    · rfl
    · rw [statusUpdate_mem _ _ _ _ e he]; rfl
    · rw [printUpdate_mem _ _ _ _ e he]; rfl

theorem step_tx_no_read (nc es ne start : ℕ) (st : St) (i : IterIn) :
    ∀ e ∈ (step Dir.tx nc es ne start st i).1, isReadEv e = false := by
  intro e he
  unfold step at he
  split_ifs at he <;> simp at he
  · subst he; rfl
  · subst he; rfl
  · subst he; rfl
  · rcases he with rfl | rfl <;> rfl
  · rcases he with rfl | he | he
    · rfl
    · rw [statusUpdate_mem _ _ _ _ e he]; rfl
    · rw [printUpdate_mem _ _ _ _ e he]; rfl

theorem runLoop_rx_no_write (nc es ne start : ℕ) :
    ∀ (iters : List IterIn) (st : St),
      ∀ e ∈ (runLoop Dir.rx nc es ne start iters st).1, isWriteEv e = false := by
  intro iters
  induction iters with
  | nil => intro st e he; simp [runLoop] at he
  | cons i rest ih =>
    intro st e he
    rcases hstep : step Dir.rx nc es ne start st i with ⟨evs, st2, ex⟩
    cases ex with
    | some e0 =>
      simp only [runLoop, hstep] at he
      exact step_rx_no_write nc es ne start st i e (by rw [hstep]; exact he)
    | none =>
      simp only [runLoop, hstep] at he
      rcases List.mem_append.mp he with h | h
      · exact step_rx_no_write nc es ne start st i e (by rw [hstep]; exact h)
      · exact ih st2 e h

theorem runLoop_tx_no_read (nc es ne start : ℕ) :
    ∀ (iters : List IterIn) (st : St),
      ∀ e ∈ (runLoop Dir.tx nc es ne start iters st).1, isReadEv e = false := by
  intro iters
  induction iters with
  | nil => intro st e he; simp [runLoop] at he
  | cons i rest ih =>
    intro st e he
    rcases hstep : step Dir.tx nc es ne start st i with ⟨evs, st2, ex⟩
    cases ex with
    | some e0 =>
      simp only [runLoop, hstep] at he
      exact step_tx_no_read nc es ne start st i e (by rw [hstep]; exact he)
    | none =>
      simp only [runLoop, hstep] at he
      rcases List.mem_append.mp he with h | h
      · exact step_tx_no_read nc es ne start st i e (by rw [hstep]; exact h)
      · exact ih st2 e h

theorem rateLoopRun_rx_no_write (nc es ne : ℕ) (t : Times)
    (iters : List IterIn) :
    ∀ e ∈ (rateLoopRun Dir.rx nc es ne t iters).1, isWriteEv e = false := by
  intro e he
  unfold rateLoopRun at he
  simp at he
  rcases he with rfl | rfl | he
  · rfl
  · rfl
  · rcases he with h | h
    · exact runLoop_rx_no_write nc es ne t.start iters (initSt t) e h
    · rcases hex : (runLoop Dir.rx nc es ne t.start iters (initSt t)).2.2 with _ | e0 <;>
        rw [hex] at h <;> simp at h
      subst h; rfl

theorem rateLoopRun_tx_no_read (nc es ne : ℕ) (t : Times)
    (iters : List IterIn) :
    ∀ e ∈ (rateLoopRun Dir.tx nc es ne t iters).1, isReadEv e = false := by
  intro e he
  unfold rateLoopRun at he
  simp at he
  rcases he with rfl | rfl | he
  · rfl
  · rfl
  · rcases he with h | h
    · exact runLoop_tx_no_read nc es ne t.start iters (initSt t) e h
    · rcases hex : (runLoop Dir.tx nc es ne t.start iters (initSt t)).2.2 with _ | e0 <;>
        rw [hex] at h <;> simp at h
      subst h; rfl

theorem Interleave.count_eq {l r m : List Ev} (h : Interleave l r m) (a : Ev) :
    m.count a = l.count a + r.count a := by
  induction h with
  | nil => rfl
  | @left b l' r' m' _ ih =>
    rw [List.count_cons, List.count_cons, ih]
    ring
  | @right b l' r' m' _ ih =>
    rw [List.count_cons, List.count_cons, ih]
    ring

theorem Interleave.mem_left {l r m : List Ev} (h : Interleave l r m) :
    ∀ x ∈ l, x ∈ m := by
  induction h with
  | nil => intro x hx; exact absurd hx (List.not_mem_nil x)
  | @left a l' r' m' _ ih =>
    intro x hx
    rcases List.mem_cons.mp hx with rfl | hx
    · exact List.mem_cons_self _ _
    · exact List.mem_cons_of_mem _ (ih x hx)
  | @right a l' r' m' _ ih =>
    intro x hx
    exact List.mem_cons_of_mem _ (ih x hx)

/-- When the loop has exited, the thread trace is exactly: MTU query,
activate, the loop-iteration events, deactivate. -/
theorem rateLoopRun_shape (d : Dir) (nc es ne : ℕ) (t : Times)
    (iters : List IterIn)
    (h : ((rateLoopRun d nc es ne t iters).2.2).isSome = true) :
    (rateLoopRun d nc es ne t iters).1 =
      Ev.getStreamMTU d :: Ev.activateStream d ::
        (runLoop d nc es ne t.start iters (initSt t)).1 ++
          [Ev.deactivateStream d] := by
  unfold rateLoopRun at h ⊢
  rcases hex : (runLoop d nc es ne t.start iters (initSt t)).2.2 with _ | e0
  · rw [hex] at h
    simp at h
  · simp [hex]

theorem rateLoopRun_printTimes (d : Dir) (nc es ne : ℕ) (t : Times)
    (iters : List IterIn) :
    printTimes (rateLoopRun d nc es ne t iters).1 =
      printTimes (runLoop d nc es ne t.start iters (initSt t)).1 := by
  unfold rateLoopRun
  rcases hex : (runLoop d nc es ne t.start iters (initSt t)).2.2 with _ | e0 <;>
    simp [hex, printTimes, List.filterMap_append]

theorem rateLoopRun_printRate_mem {d : Dir} {nc es ne : ℕ} {t : Times}
    {iters : List IterIn} {d' : Dir} {u tus s ov un : ℕ}
    (h : Ev.printRate d' u tus s ov un ∈ (rateLoopRun d nc es ne t iters).1) :
    Ev.printRate d' u tus s ov un ∈
      (runLoop d nc es ne t.start iters (initSt t)).1 := by
  unfold rateLoopRun at h
  simp at h
  rcases h with h | h
  · exact h
  · rcases hex : (runLoop d nc es ne t.start iters (initSt t)).2.2 with _ | e0 <;>
      rw [hex] at h <;> simp at h

/-! ## The claims -/

/-- C1 (counterexample): the claim "every buffer passed by
`runRateTestStreamLoop` to `readStream`/`writeStream` is used as-allocated,
with no locally computed signal data written into it" is false for
`src/SoapyRateTest.cpp`: at `numChans = 2`, `elemSize = 8`, `numElems = 1`
and `omega = 0` (any trig model has `cos 0 = 1`, `sin 0 = 0`), the
generation loop writes the computed nonzero sample `2^31` into byte 0 of
`buffMem[0]` (and of `buffMem[1]`) before any stream call. -/
theorem C1_counterexample :
    generateSamples (fun _ => 1) (fun _ => 0) 0 2 8 1 =
        some [⟨0, 0, 2147483648⟩, ⟨0, 4, 0⟩, ⟨1, 0, 2147483648⟩, ⟨1, 4, 0⟩] ∧
      generateSamples (fun _ => 1) (fun _ => 0) 0 2 8 1 ≠ some [] ∧
      (2147483648 : ℚ) ≠ 0 := by
  have h : generateSamples (fun _ => 1) (fun _ => 0) 0 2 8 1 =
      some [⟨0, 0, 2147483648⟩, ⟨0, 4, 0⟩, ⟨1, 0, 2147483648⟩, ⟨1, 4, 0⟩] := by
    norm_num [generateSamples, genAux, genWritesAt]
  refine ⟨h, by rw [h]; simp, by norm_num⟩

/-- C1 (amended): `runRateTestStreamLoop` performs exactly one local
computation before streaming — it fills `buffMem[0]` and `buffMem[1]` with
the computed sinusoid, writing for each element index `j` the float pair
`(cos(j*omega), sin(j*omega))` scaled by `amplitude * exp2(elemSize*4-1)` at
byte offsets `j` and `j+4`, with `omega = 2*pi*frequency/sampleRate` — and
after that every event of the streaming loop is a direct SoapySDR call (or
a console print): the buffers are streamed as filled, not as allocated. -/
theorem C1_corrected (cosF sinF : ℚ → ℚ) (piQ frequency sampleRate : ℚ)
    (d : Dir) (nc es ne : ℕ) (t : Times) (iters : List IterIn) (e : Ev)
    (hnc : 1 < nc) (hb : ne + 7 ≤ es * ne)
    (he : e ∈ (runRateTestStreamLoop cosF sinF piQ frequency sampleRate
      d nc es ne t iters).2.1) :
    (runRateTestStreamLoop cosF sinF piQ frequency sampleRate
        d nc es ne t iters).1 =
      some ((List.range ne).flatMap fun j =>
        genWritesAt cosF sinF es (j * (2 * piQ * frequency / sampleRate)) j) ∧
      threadEv d e = true := by
  constructor
  · show generateSamples _ _ _ _ _ _ = _
    unfold generateSamples
    rw [genAux_eq_some cosF sinF _ nc es (es * ne) hnc ne 0 0
      (fun j hj => by omega)]
    exact congrArg some (List.flatMap_congr fun j _ => by rw [zero_add, zero_add])
  · exact rateLoopRun_mem_threadEv d nc es ne t iters e he

/-- C1 (witness for the amended claim), at the counterexample's concrete
input extended with a concrete loop schedule. -/
theorem C1_corrected_witness :
    (1 < 2 ∧ 1 + 7 ≤ 8 * 1 ∧
        Ev.getStreamMTU Dir.rx ∈ (runRateTestStreamLoop (fun _ => 1)
          (fun _ => 0) 3 0 1 Dir.rx 2 8 1 sampleTimes [stopIter]).2.1) ∧
      (runRateTestStreamLoop (fun _ => 1) (fun _ => 0) 3 0 1
          Dir.rx 2 8 1 sampleTimes [stopIter]).1 =
        some ((List.range 1).flatMap fun j =>
          genWritesAt (fun _ => 1) (fun _ => 0) 8 (j * (2 * 3 * 0 / 1)) j) ∧
      threadEv Dir.rx (Ev.getStreamMTU Dir.rx) = true :=
  ⟨⟨by decide, by decide, by decide⟩,
    C1_corrected (fun _ => 1) (fun _ => 0) 3 0 1 Dir.rx 2 8 1 sampleTimes
      [stopIter] (Ev.getStreamMTU Dir.rx) (by decide) (by decide) (by decide)⟩

/-- C9: the buffer accesses of the sample-generation loop are in bounds
only when at least two channel buffers exist: with `numChans = 1` (and at
least one element, so the loop body runs) the unconditional access to
`buffMem[1]` is out of bounds, and the Option-returning embedding yields
`none`. -/
theorem C9_one_channel_oob (cosF sinF : ℚ → ℚ) (omega : ℚ) (es ne : ℕ)
    (hne : 0 < ne) :
    generateSamples cosF sinF omega 1 es ne = none :=
  generateSamples_one_chan cosF sinF omega es ne hne

/-- C9 witness at a concrete input. -/
theorem C9_one_channel_oob_witness :
    0 < 16 ∧ generateSamples (fun _ => 1) (fun _ => 0) 0 1 8 16 = none :=
  ⟨by decide,
    C9_one_channel_oob (fun _ => 1) (fun _ => 0) 0 8 16 (by decide)⟩

/-- C8: `SoapySDRRateTest` returns `EXIT_FAILURE` on every execution path —
the catch branch (`SoapyRateTest.cpp:240`) and the normal fall-through end
(`SoapyRateTest.cpp:242`) — and never `EXIT_SUCCESS`. -/
theorem C8_always_exit_failure (threw : Bool) :
    soapySDRRateTestExit threw = EXIT_FAILURE ∧
      soapySDRRateTestExit threw ≠ EXIT_SUCCESS := by
  cases threw <;> exact ⟨rfl, by decide⟩

/-- C8 witness at the exception path. -/
theorem C8_always_exit_failure_witness :
    soapySDRRateTestExit true = EXIT_FAILURE ∧
      soapySDRRateTestExit true ≠ EXIT_SUCCESS :=
  C8_always_exit_failure true

/-- C10: the channel list is `[0]` when the parse yields no pairs and
otherwise has exactly one entry per parsed key; it is never empty, so
`channels.front()` is always defined. -/
theorem C10_channels_nonempty (parse : String → ℕ)
    (pairs : List (String × String)) :
    buildChannels parse pairs =
        (if pairs.isEmpty then [0] else pairs.map fun p => parse p.1) ∧
      buildChannels parse pairs ≠ [] ∧
      ((buildChannels parse pairs).head?).isSome = true := by
  cases pairs <;> simp [buildChannels]

/-- C10 witness at the empty parse (the `[0]` default). -/
theorem C10_channels_nonempty_witness :
    buildChannels (fun _ => 0) [] ≠ [] ∧
      ((buildChannels (fun _ => 0) []).head?).isSome = true :=
  (C10_channels_nonempty (fun _ => 0) []).2

/-- C4: the rate-test loop is continuous until signalled or fatally erring:
an iteration with the flag clear continues past `SOAPY_SDR_TIMEOUT`
unchanged and past `SOAPY_SDR_OVERFLOW`/`SOAPY_SDR_UNDERFLOW` with the
matching counter incremented; the loop leaves by the signal only when some
iteration observed `loopDone` set, and by `break` only on a negative stream
return other than those three; an iteration that observes `loopDone` set
makes no stream call; and once the loop has exited the thread trace ends by
deactivating the stream. -/
theorem C4_loop_control (d : Dir) (nc es ne start : ℕ) (st : St) (i : IterIn) :
    (i.loopDone = false → i.ret = SOAPY_SDR_TIMEOUT →
      step d nc es ne start st i = ([streamCallEv d ne], st, none)) ∧
    (i.loopDone = false → i.ret = SOAPY_SDR_OVERFLOW →
      step d nc es ne start st i =
        ([streamCallEv d ne],
          { st with overflows := (st.overflows + 1) % 2 ^ 32 }, none)) ∧
    (i.loopDone = false → i.ret = SOAPY_SDR_UNDERFLOW →
      step d nc es ne start st i =
        ([streamCallEv d ne],
          { st with underflows := (st.underflows + 1) % 2 ^ 32 }, none)) ∧
    (i.loopDone = true →
      step d nc es ne start st i = ([], st, some LoopExit.signalled)) ∧
    (∀ (iters : List IterIn) (st' : St),
      (runLoop d nc es ne start iters st').2.2 = some LoopExit.signalled →
        ∃ j ∈ iters, j.loopDone = true) ∧
    (∀ (iters : List IterIn) (st' : St) (r : ℤ),
      (runLoop d nc es ne start iters st').2.2 =
          some (LoopExit.fatalError r) →
        r < 0 ∧ r ≠ SOAPY_SDR_TIMEOUT ∧ r ≠ SOAPY_SDR_OVERFLOW ∧
          r ≠ SOAPY_SDR_UNDERFLOW ∧
          ∃ j ∈ iters, j.loopDone = false ∧ j.ret = r) ∧
    (∀ (t : Times) (iters : List IterIn),
      ((rateLoopRun d nc es ne t iters).2.2).isSome = true →
        (rateLoopRun d nc es ne t iters).1 =
          Ev.getStreamMTU d :: Ev.activateStream d ::
            (runLoop d nc es ne t.start iters (initSt t)).1 ++
              [Ev.deactivateStream d]) := by
  refine ⟨?_, ?_, ?_, ?_, ?_, ?_, ?_⟩
  · intro h1 h2
    simp [step, h1, h2]
  · intro h1 h2
    norm_num [step, h1, h2, SOAPY_SDR_TIMEOUT, SOAPY_SDR_OVERFLOW]
  · intro h1 h2
    norm_num [step, h1, h2, SOAPY_SDR_TIMEOUT, SOAPY_SDR_OVERFLOW,
      SOAPY_SDR_UNDERFLOW]
  · intro h1
    simp [step, h1]
  · exact fun iters st' => runLoop_exit_signalled d nc es ne start iters st'
  · exact fun iters st' r => runLoop_exit_fatal d nc es ne start iters st' r
  · exact fun t iters => rateLoopRun_shape d nc es ne t iters

/-- C4 witness: a concrete overflow iteration continues with the counter
bumped, and a concrete signalled iteration makes no stream call. -/
theorem C4_loop_control_witness :
    step Dir.rx 1 4 16 0 (initSt sampleTimes) ⟨false, -4, 0, []⟩ =
        ([streamCallEv Dir.rx 16],
          { initSt sampleTimes with overflows := (0 + 1) % 2 ^ 32 }, none) ∧
      step Dir.rx 1 4 16 0 (initSt sampleTimes) stopIter =
        ([], initSt sampleTimes, some LoopExit.signalled) :=
  ⟨(C4_loop_control Dir.rx 1 4 16 0 (initSt sampleTimes)
      ⟨false, -4, 0, []⟩).2.1 rfl rfl,
    (C4_loop_control Dir.rx 1 4 16 0 (initSt sampleTimes)
      stopIter).2.2.2.1 rfl⟩

/-- C6: rate prints are spaced strictly more than five seconds apart (each
print time exceeds the previous `timeLastPrint` by more than 5 s, which it
then replaces); every print of one loop run carries the loop's direction,
the elapsed microseconds `(now - startTime)/1000`, and the counters whose
printed forms are: sample rate `totalSamples` over elapsed microseconds,
byte rate `sampleRate*numChans*elemSize`, overflow/underflow counts shown
exactly when nonzero. -/
theorem C6_print_stats (d : Dir) (nc es ne : ℕ) (t : Times)
    (iters : List IterIn) :
    List.Chain' (fun a b => a + 5000000000 < b)
        (printTimes (rateLoopRun d nc es ne t iters).1) ∧
      ∀ (d' : Dir) (u tus samples ov un : ℕ),
        Ev.printRate d' u tus samples ov un ∈
            (rateLoopRun d nc es ne t iters).1 →
          d' = d ∧ tus = (u - t.start) / 1000 ∧
            printedMsps tus samples = (samples : ℚ) / (tus : ℚ) ∧
            printedMBps tus samples nc es =
              printedMsps tus samples * nc * es ∧
            (printedCount ov = none ↔ ov = 0) ∧
            (printedCount un = none ↔ un = 0) := by
  constructor
  · rw [rateLoopRun_printTimes]
    exact (runLoop_chain d nc es ne t.start iters (initSt t)).tail
  · intro d' u tus samples ov un h
    have hm := runLoop_printRate_fields d nc es ne t.start iters (initSt t)
      d' u tus samples ov un (rateLoopRun_printRate_mem h)
    refine ⟨hm.1, hm.2, rfl, rfl, ?_, ?_⟩ <;>
      unfold printedCount <;> split_ifs with hz <;> simp [hz]

/-- C6 witness: a concrete schedule whose single successful iteration six
seconds in fires exactly one rate print. -/
theorem C6_print_stats_witness :
    Ev.printRate Dir.rx 6000000000 6000000 16 0 0 ∈
        (rateLoopRun Dir.rx 2 8 16 sampleTimes [samplePrintIter]).1 ∧
      (Dir.rx = Dir.rx ∧ 6000000 = (6000000000 - sampleTimes.start) / 1000 ∧
        printedMsps 6000000 16 = (16 : ℚ) / (6000000 : ℚ) ∧
        printedMBps 6000000 16 2 8 = printedMsps 6000000 16 * 2 * 8 ∧
        (printedCount 0 = none ↔ 0 = 0) ∧
        (printedCount 0 = none ↔ 0 = 0)) :=
  ⟨by decide,
    (C6_print_stats Dir.rx 2 8 16 sampleTimes [samplePrintIter]).2
      Dir.rx 6000000000 6000000 16 0 0 (by decide)⟩

/-- C7: the only mutable state shared between the two stream-loop threads
is the `loopDone` flag: the signal handler's modelled effect is exactly the
flag write; neither thread's trace contains a flag write (the loops only
read the flag, as an iteration input); and in any interleaving of the two
threads, projecting onto either direction recovers that thread's own trace
unchanged — each thread's observable effects are wholly its own, so apart
from the read-only flag the threads share nothing.  (That no mutex, atomic
or condition variable is used is syntactic: the source declares none.) -/
theorem C7_shared_flag_only (nc rxEs rxNe txEs txNe : ℕ) (rxT txT : Times)
    (rxIters txIters : List IterIn) (mid : List Ev)
    (hmid : Interleave (rateLoopRun Dir.rx nc rxEs rxNe rxT rxIters).1
      (rateLoopRun Dir.tx nc txEs txNe txT txIters).1 mid) :
    sigIntHandlerEvs = [Ev.setLoopDone] ∧
      Ev.setLoopDone ∉ (rateLoopRun Dir.rx nc rxEs rxNe rxT rxIters).1 ∧
      Ev.setLoopDone ∉ (rateLoopRun Dir.tx nc txEs txNe txT txIters).1 ∧
      mid.filter (evDirIs Dir.rx) =
        (rateLoopRun Dir.rx nc rxEs rxNe rxT rxIters).1 ∧
      mid.filter (evDirIs Dir.tx) =
        (rateLoopRun Dir.tx nc txEs txNe txT txIters).1 := by
  have hrxall : ∀ e ∈ (rateLoopRun Dir.rx nc rxEs rxNe rxT rxIters).1,
      evDir e = some Dir.rx :=
    fun e he => threadEv_evDir (rateLoopRun_mem_threadEv _ _ _ _ _ _ e he)
  have htxall : ∀ e ∈ (rateLoopRun Dir.tx nc txEs txNe txT txIters).1,
      evDir e = some Dir.tx :=
    fun e he => threadEv_evDir (rateLoopRun_mem_threadEv _ _ _ _ _ _ e he)
  refine ⟨rfl, ?_, ?_, ?_, ?_⟩
  · intro hmem
    have := hrxall _ hmem
    simp [evDir] at this
  · intro hmem
    have := htxall _ hmem
    simp [evDir] at this
  · rw [Interleave.filter_left _ hmid
      (fun b hb => by simp [evDirIs, htxall b hb])]
    exact List.filter_eq_self.mpr fun e he => by simp [evDirIs, hrxall e he]
  · rw [Interleave.filter_left _ hmid.symm
      (fun b hb => by simp [evDirIs, hrxall b hb])]
    exact List.filter_eq_self.mpr fun e he => by simp [evDirIs, htxall e he]

/-- C7 witness at a concrete pair of signalled loop runs, sequentially
interleaved. -/
theorem C7_shared_flag_only_witness :
    Ev.setLoopDone ∉ sampleRxRun.1 ∧
      sampleMid.filter (evDirIs Dir.rx) = sampleRxRun.1 := by
  have h := C7_shared_flag_only 1 8 16 8 16 sampleTimes sampleTimes
    [stopIter] [stopIter] sampleMid
    (interleave_append sampleRxRun.1 sampleTxRun.1)
  exact ⟨h.2.1, h.2.2.2.1⟩

/-- C5: before any stream is created, every channel of the parsed list is
configured: the trace decomposes as the make event and the configuration
calls followed by everything else; for each channel the configuration part
contains `setFrequency`, `setBandwidth`, `setSampleRate` (same value for RX
and TX) and `setGain` (`rxGain` for RX, `txGain` for TX); no `setupStream`
occurs in the configuration part, and no setter occurs after it. -/
theorem C5_configure_before_setup
    (channels : List ℕ) (cfg : Cfg) (fe : Bool)
    (nc rxEs rxNe txEs txNe : ℕ) (rxT txT : Times)
    (rxIters txIters : List IterIn) (mid : List Ev)
    (hmid : Interleave (rateLoopRun Dir.rx nc rxEs rxNe rxT rxIters).1
      (rateLoopRun Dir.tx nc txEs txNe txT txIters).1 mid) :
    programTrace channels cfg fe mid =
        (Ev.make :: configEvents channels cfg) ++
          ((if fe then [Ev.getNativeFormat Dir.rx] else []) ++
            [Ev.setupStream Dir.rx] ++
            (if fe then [Ev.getNativeFormat Dir.rx] else []) ++
            [Ev.setupStream Dir.tx] ++ mid ++
            [Ev.closeStream Dir.rx, Ev.closeStream Dir.tx, Ev.unmake]) ∧
      (∀ c ∈ channels,
        Ev.setFrequency Dir.rx c cfg.frequency ∈ configEvents channels cfg ∧
        Ev.setFrequency Dir.tx c cfg.frequency ∈ configEvents channels cfg ∧
        Ev.setBandwidth Dir.rx c cfg.bandwidth ∈ configEvents channels cfg ∧
        Ev.setBandwidth Dir.tx c cfg.bandwidth ∈ configEvents channels cfg ∧
        Ev.setSampleRate Dir.rx c cfg.sampleRate ∈ configEvents channels cfg ∧
        Ev.setSampleRate Dir.tx c cfg.sampleRate ∈ configEvents channels cfg ∧
        Ev.setGain Dir.rx c cfg.rxGain ∈ configEvents channels cfg ∧
        Ev.setGain Dir.tx c cfg.txGain ∈ configEvents channels cfg) ∧
      (∀ e ∈ Ev.make :: configEvents channels cfg, isSetupEv e = false) ∧
      (∀ e ∈ (if fe then [Ev.getNativeFormat Dir.rx] else []) ++
          [Ev.setupStream Dir.rx] ++
          (if fe then [Ev.getNativeFormat Dir.rx] else []) ++
          [Ev.setupStream Dir.tx] ++ mid ++
          [Ev.closeStream Dir.rx, Ev.closeStream Dir.tx, Ev.unmake],
        isSetterEv e = false) := by
  refine ⟨by simp [programTrace], ?_, ?_, ?_⟩
  · intro c hc
    refine ⟨?_, ?_, ?_, ?_, ?_, ?_, ?_, ?_⟩ <;>
      exact List.mem_flatMap.mpr ⟨c, hc, by simp [configEvents]⟩
  · intro e he
    rcases List.mem_cons.mp he with rfl | he
    · rfl
    · exact setter_not_setup (configEvents_mem channels cfg e he)
  · intro e he
    simp only [List.append_assoc, List.mem_append] at he
    rcases he with he | he | he | he | he | he
    · cases fe <;> simp_all [isSetterEv]
    · simp at he; subst he; rfl
    · cases fe <;> simp_all [isSetterEv]
    · simp at he; subst he; rfl
    · rcases hmid.mem_or e he with h | h
      · exact threadEv_not_setter (rateLoopRun_mem_threadEv _ _ _ _ _ _ e h)
      · exact threadEv_not_setter (rateLoopRun_mem_threadEv _ _ _ _ _ _ e h)
    · simp at he
      rcases he with rfl | rfl | rfl <;> rfl

/-- C5 witness: channel 0 of the sample scenario receives its
configuration calls. -/
theorem C5_configure_before_setup_witness :
    Ev.setFrequency Dir.rx 0 sampleCfg.frequency ∈
        configEvents sampleChannels sampleCfg ∧
      Ev.setGain Dir.tx 0 sampleCfg.txGain ∈
        configEvents sampleChannels sampleCfg := by
  have h := C5_configure_before_setup sampleChannels sampleCfg true
    1 8 16 8 16 sampleTimes sampleTimes [stopIter] [stopIter] sampleMid
    (interleave_append sampleRxRun.1 sampleTxRun.1)
  have h0 := h.2.1 0 (by decide)
  exact ⟨h0.1, h0.2.2.2.2.2.2.2⟩

theorem activate_not_mem_config (d0 : Dir) (channels : List ℕ) (cfg : Cfg) :
    Ev.activateStream d0 ∉ configEvents channels cfg := by
  intro h
  have := configEvents_mem channels cfg _ h
  simp [isSetterEv] at this

theorem rateLoopRun_count_activate (d d0 : Dir) (nc es ne : ℕ) (t : Times)
    (iters : List IterIn) :
    (rateLoopRun d nc es ne t iters).1.count (Ev.activateStream d0) =
      if d0 = d then 1 else 0 := by
  have hloop :
      (runLoop d nc es ne t.start iters (initSt t)).1.count
        (Ev.activateStream d0) = 0 :=
    List.count_eq_zero.mpr fun hmem => by
      have := midEv_not_activate
        (runLoop_mem_midEv d nc es ne t.start iters (initSt t) _ hmem)
      simp [isActivateEv] at this
  unfold rateLoopRun
  rcases hex : (runLoop d nc es ne t.start iters (initSt t)).2.2 with _ | e0 <;>
    simp [hex, List.count_cons, List.count_append, hloop] <;>
    by_cases hd : d0 = d <;> simp [hd] <;> exact fun hc => hd hc.symm

theorem rateLoopRun_count_close (d d0 : Dir) (nc es ne : ℕ) (t : Times)
    (iters : List IterIn) :
    (rateLoopRun d nc es ne t iters).1.count (Ev.closeStream d0) = 0 :=
  List.count_eq_zero.mpr fun hmem => by
    have := threadEv_not_close (rateLoopRun_mem_threadEv d nc es ne t iters _ hmem)
    simp [isCloseEv] at this

theorem close_not_mem_config (d0 : Dir) (channels : List ℕ) (cfg : Cfg) :
    Ev.closeStream d0 ∉ configEvents channels cfg := by
  intro h
  have := configEvents_mem channels cfg _ h
  simp [isSetterEv] at this

/-- C2: exactly two stream loops run — one activation per direction in the
whole trace —, the RX loop never calls `writeStream` and the TX loop never
calls `readStream`, both loops' deactivations lie in the interleaved middle
section, and the trace ends with the two `closeStream` calls and the device
release, with no `closeStream` anywhere earlier: both threads are joined
before tear-down. -/
theorem C2_two_stream_threads
    (channels : List ℕ) (cfg : Cfg) (fe : Bool)
    (nc rxEs rxNe txEs txNe : ℕ) (rxT txT : Times)
    (rxIters txIters : List IterIn) (mid : List Ev)
    (hrx : ((rateLoopRun Dir.rx nc rxEs rxNe rxT rxIters).2.2).isSome = true)
    (htx : ((rateLoopRun Dir.tx nc txEs txNe txT txIters).2.2).isSome = true)
    (hmid : Interleave (rateLoopRun Dir.rx nc rxEs rxNe rxT rxIters).1
      (rateLoopRun Dir.tx nc txEs txNe txT txIters).1 mid) :
    (programTrace channels cfg fe mid).count (Ev.activateStream Dir.rx) = 1 ∧
      (programTrace channels cfg fe mid).count (Ev.activateStream Dir.tx)
        = 1 ∧
      (∀ (d0 : Dir) (n : ℕ), Ev.writeStream d0 n ∉
        (rateLoopRun Dir.rx nc rxEs rxNe rxT rxIters).1) ∧
      (∀ (d0 : Dir) (n : ℕ), Ev.readStream d0 n ∉
        (rateLoopRun Dir.tx nc txEs txNe txT txIters).1) ∧
      Ev.deactivateStream Dir.rx ∈ mid ∧
      Ev.deactivateStream Dir.tx ∈ mid ∧
      programTrace channels cfg fe mid =
        (Ev.make :: configEvents channels cfg ++
            (if fe then [Ev.getNativeFormat Dir.rx] else []) ++
            [Ev.setupStream Dir.rx] ++
            (if fe then [Ev.getNativeFormat Dir.rx] else []) ++
            [Ev.setupStream Dir.tx] ++ mid) ++
          [Ev.closeStream Dir.rx, Ev.closeStream Dir.tx, Ev.unmake] ∧
      (∀ e ∈ Ev.make :: configEvents channels cfg ++
          (if fe then [Ev.getNativeFormat Dir.rx] else []) ++
          [Ev.setupStream Dir.rx] ++
          (if fe then [Ev.getNativeFormat Dir.rx] else []) ++
          [Ev.setupStream Dir.tx] ++ mid,
        isCloseEv e = false) := by
  have hmidc : ∀ d0 : Dir, mid.count (Ev.activateStream d0) =
      (if d0 = Dir.rx then 1 else 0) + (if d0 = Dir.tx then 1 else 0) := by
    intro d0
    rw [hmid.count_eq, rateLoopRun_count_activate, rateLoopRun_count_activate]
  have hcfg : ∀ d0 : Dir,
      (configEvents channels cfg).count (Ev.activateStream d0) = 0 :=
    fun d0 => List.count_eq_zero.mpr (activate_not_mem_config d0 channels cfg)
  refine ⟨?_, ?_, ?_, ?_, ?_, ?_, by simp [programTrace], ?_⟩
  · simp [programTrace, List.count_cons, List.count_append, hcfg, hmidc]
    cases fe <;> simp
  · simp [programTrace, List.count_cons, List.count_append, hcfg, hmidc]
    cases fe <;> simp
  · intro d0 n hmem
    have := rateLoopRun_rx_no_write nc rxEs rxNe rxT rxIters _ hmem
    simp [isWriteEv] at this
  · intro d0 n hmem
    have := rateLoopRun_tx_no_read nc txEs txNe txT txIters _ hmem
    simp [isReadEv] at this
  · refine hmid.mem_left _ ?_
    rw [rateLoopRun_shape Dir.rx nc rxEs rxNe rxT rxIters hrx]
    simp
  · refine hmid.symm.mem_left _ ?_
    rw [rateLoopRun_shape Dir.tx nc txEs txNe txT txIters htx]
    simp
  · intro e he
    simp only [List.cons_append, List.append_assoc, List.mem_cons,
      List.mem_append] at he
    rcases he with rfl | he | he | rfl | he | he | rfl | he | he
    · rfl
    · exact setter_not_close (configEvents_mem channels cfg e he)
    · cases fe <;> simp_all [isCloseEv]
    · rfl
    · simp at he
    · cases fe <;> simp_all [isCloseEv]
    · rfl
    · simp at he
    · rcases hmid.mem_or e he with h | h
      · exact threadEv_not_close (rateLoopRun_mem_threadEv _ _ _ _ _ _ e h)
      · exact threadEv_not_close (rateLoopRun_mem_threadEv _ _ _ _ _ _ e h)

/-- C2 witness at the concrete sample scenario. -/
theorem C2_two_stream_threads_witness :
    Ev.writeStream Dir.tx 16 ∉ sampleRxRun.1 ∧
      Ev.deactivateStream Dir.rx ∈ sampleMid := by
  have h := C2_two_stream_threads sampleChannels sampleCfg true
    1 8 16 8 16 sampleTimes sampleTimes [stopIter] [stopIter] sampleMid
    (by decide) (by decide)
    (interleave_append sampleRxRun.1 sampleTxRun.1)
  exact ⟨h.2.2.1 Dir.tx 16, h.2.2.2.2.1⟩

/-- C3: per stream, the lifecycle calls are ordered setup, activate,
read/write/status body, deactivate, close: the subsequence of stream-`d`
lifecycle events of the whole program trace is exactly `setupStream`,
`activateStream`, a body of only read/write/status calls, `deactivateStream`,
`closeStream`; and `closeStream` occurs exactly once for that stream. -/
theorem C3_stream_lifecycle_order
    (channels : List ℕ) (cfg : Cfg) (fe : Bool)
    (nc rxEs rxNe txEs txNe : ℕ) (rxT txT : Times)
    (rxIters txIters : List IterIn) (mid : List Ev)
    (hrx : ((rateLoopRun Dir.rx nc rxEs rxNe rxT rxIters).2.2).isSome = true)
    (htx : ((rateLoopRun Dir.tx nc txEs txNe txT txIters).2.2).isSome = true)
    (hmid : Interleave (rateLoopRun Dir.rx nc rxEs rxNe rxT rxIters).1
      (rateLoopRun Dir.tx nc txEs txNe txT txIters).1 mid)
    (d : Dir) :
    ∃ body,
      (programTrace channels cfg fe mid).filter (lifecycleEv d) =
        Ev.setupStream d :: Ev.activateStream d :: body ++
          [Ev.deactivateStream d, Ev.closeStream d] ∧
      (∀ e ∈ body, isBodyEv d e = true) ∧
      (programTrace channels cfg fe mid).count (Ev.closeStream d) = 1 := by
  have hcfgf : ∀ d0 : Dir,
      (configEvents channels cfg).filter (lifecycleEv d0) = [] := by
    intro d0
    rw [List.filter_eq_nil]
    intro e he
    simp [setter_not_lifecycle d0 (configEvents_mem channels cfg e he)]
  have hmidcl : ∀ d0 : Dir, mid.count (Ev.closeStream d0) = 0 := by
    intro d0
    rw [hmid.count_eq, rateLoopRun_count_close, rateLoopRun_count_close]
  have hcfgcl : ∀ d0 : Dir,
      (configEvents channels cfg).count (Ev.closeStream d0) = 0 :=
    fun d0 => List.count_eq_zero.mpr (close_not_mem_config d0 channels cfg)
  cases d
  · refine ⟨((runLoop Dir.rx nc rxEs rxNe rxT.start rxIters
        (initSt rxT)).1).filter (lifecycleEv Dir.rx), ?_, ?_, ?_⟩
    · have hmidf : mid.filter (lifecycleEv Dir.rx) =
          ((rateLoopRun Dir.rx nc rxEs rxNe rxT rxIters).1).filter
            (lifecycleEv Dir.rx) :=
        Interleave.filter_left _ hmid fun b hb =>
          threadEv_lifecycle_ne (by decide)
            (rateLoopRun_mem_threadEv _ _ _ _ _ _ b hb)
      have hshape := rateLoopRun_shape Dir.rx nc rxEs rxNe rxT rxIters hrx
      simp [programTrace, List.filter_append, hcfgf, hmidf, hshape,
        List.filter_cons, lifecycleEv]
      cases fe <;> simp [lifecycleEv]
    · intro e he
      have hm := List.mem_filter.mp he
      exact midEv_lifecycle_body
        (runLoop_mem_midEv Dir.rx nc rxEs rxNe rxT.start rxIters
          (initSt rxT) e hm.1) hm.2
    · simp [programTrace, List.count_cons, List.count_append, hmidcl, hcfgcl]
      cases fe <;> simp
  · refine ⟨((runLoop Dir.tx nc txEs txNe txT.start txIters
        (initSt txT)).1).filter (lifecycleEv Dir.tx), ?_, ?_, ?_⟩
    · have hmidf : mid.filter (lifecycleEv Dir.tx) =
          ((rateLoopRun Dir.tx nc txEs txNe txT txIters).1).filter
            (lifecycleEv Dir.tx) :=
        Interleave.filter_left _ hmid.symm fun b hb =>
          threadEv_lifecycle_ne (by decide)
            (rateLoopRun_mem_threadEv _ _ _ _ _ _ b hb)
      have hshape := rateLoopRun_shape Dir.tx nc txEs txNe txT txIters htx
      simp [programTrace, List.filter_append, hcfgf, hmidf, hshape,
        List.filter_cons, lifecycleEv]
      cases fe <;> simp [lifecycleEv]
    · intro e he
      have hm := List.mem_filter.mp he
      exact midEv_lifecycle_body
        (runLoop_mem_midEv Dir.tx nc txEs txNe txT.start txIters
          (initSt txT) e hm.1) hm.2
    · simp [programTrace, List.count_cons, List.count_append, hmidcl, hcfgcl]
      cases fe <;> simp

/-- C3 witness at the concrete sample scenario (empty loop body). -/
theorem C3_stream_lifecycle_order_witness :
    (programTrace sampleChannels sampleCfg true sampleMid).count
        (Ev.closeStream Dir.rx) = 1 ∧
      (programTrace sampleChannels sampleCfg true sampleMid).filter
          (lifecycleEv Dir.rx) =
        [Ev.setupStream Dir.rx, Ev.activateStream Dir.rx,
          Ev.deactivateStream Dir.rx, Ev.closeStream Dir.rx] := by
  obtain ⟨body, hs, hb, hc⟩ := C3_stream_lifecycle_order
    sampleChannels sampleCfg true 1 8 16 8 16 sampleTimes sampleTimes
    [stopIter] [stopIter] sampleMid (by decide) (by decide)
    (interleave_append sampleRxRun.1 sampleTxRun.1) Dir.rx
  exact ⟨hc, by decide⟩

end SoapyTest
